import Mathlib

/-!
Verification of the world-cup-sim-26 data pipeline.

The development shallowly embeds the two core source files:

* src/features_creator.py (class FeaturesCreator): rolling-form feature
  computation over a chronologically sorted match table.  Dates are day
  indices (Nat), scores are Nat, ranks and derived metrics are rationals.
  A missing value (NaN in the source) is modelled as none : Option Rat.
* src/db_builder.py: the inner join of raw match rows with the per-day
  ranking table.

Lists model dataframes, in row order.  pandas sort_values is modelled by
a sort on the date key (List.insertionSort); the source's tie order among
equal dates is not specified by pandas either, and no verified statement
depends on it.
-/

namespace WorldCupSim

open List

/-- One row of the ranked match table consumed by FeaturesCreator:
date, the two team names, integer scores, and each side's rank. -/
structure MatchRecord where
  date : Nat
  home_team : String
  away_team : String
  home_score : Nat
  away_score : Nat
  rank_home : ℚ
  rank_away : ℚ
deriving DecidableEq, Repr

/-- FeaturesCreator.calculate_points_won: 3 for a win, 1 for a draw, 0 for
a loss, judged from the two scores. -/
def calculate_points_won (score opp_score : Nat) : Nat :=
  if score > opp_score then 3
  else if score = opp_score then 1
  else 0

/-- The denominator 1 + rank/100 used by every rank-weighted metric in
create_all_features and in the per-team history rebuild. -/
def weightDenom (rank : ℚ) : ℚ := 1 + rank / 100

/-- One role-normalized prior-match outcome, as built per row of the
home_games / away_games frames inside the method get_team_games_before_date
of the source. -/
structure Outcome where
  date : Nat
  points_won : ℚ
  points_weighted : ℚ
  goals : ℚ
  goals_suffered : ℚ
  goals_weighted : ℚ
  goals_suffered_weighted : ℚ
deriving DecidableEq, Repr

/-- The outcome columns computed for a row of home_games (the team played
at home): opponent rank is rank_away. -/
def homeOutcome (r : MatchRecord) : Outcome :=
  { date := r.date
    points_won := (calculate_points_won r.home_score r.away_score : ℚ)
    points_weighted :=
      (calculate_points_won r.home_score r.away_score : ℚ) / weightDenom r.rank_away
    goals := (r.home_score : ℚ)
    goals_suffered := (r.away_score : ℚ)
    goals_weighted := (r.home_score : ℚ) / weightDenom r.rank_away
    goals_suffered_weighted := (r.away_score : ℚ) / weightDenom r.rank_away }

/-- The outcome columns computed for a row of away_games (the team played
away): opponent rank is rank_home. -/
def awayOutcome (r : MatchRecord) : Outcome :=
  { date := r.date
    points_won := (calculate_points_won r.away_score r.home_score : ℚ)
    points_weighted :=
      (calculate_points_won r.away_score r.home_score : ℚ) / weightDenom r.rank_home
    goals := (r.away_score : ℚ)
    goals_suffered := (r.home_score : ℚ)
    goals_weighted := (r.away_score : ℚ) / weightDenom r.rank_home
    goals_suffered_weighted := (r.home_score : ℚ) / weightDenom r.rank_home }

/-- Date order on outcomes, the key of the sort_values call that merges the
home and away history frames. -/
def dateLE (a b : Outcome) : Prop := a.date ≤ b.date

instance : DecidableRel dateLE := fun a b => Nat.decLe a.date b.date

instance : IsTotal Outcome dateLE := ⟨fun a b => Nat.le_total a.date b.date⟩

instance : IsTrans Outcome dateLE := ⟨fun _ _ _ h h' => Nat.le_trans h h'⟩

/-- Strict date order on outcomes. -/
def dateLT (a b : Outcome) : Prop := a.date < b.date

instance : DecidableRel dateLT := fun a b => Nat.decLt a.date b.date

instance : IsAntisymm Outcome dateLT :=
  ⟨fun _ _ h h' => absurd h' (Nat.lt_asymm h)⟩

/-- Model of sort_values over the date column (the source leaves the order of
equal dates to pandas; a stable insertion sort is one valid realisation). -/
def sortByDate (l : List Outcome) : List Outcome := l.insertionSort dateLE

/-- The home_games frame of get_team_games_before_date: rows of the table in
which the team is home_team, with strictly earlier date. -/
def homeGames (df : List MatchRecord) (team : String) (d : Nat) : List MatchRecord :=
  df.filter (fun r => r.home_team == team && decide (r.date < d))

/-- The away_games frame of get_team_games_before_date: rows of the table in
which the team is away_team, with strictly earlier date. -/
def awayGames (df : List MatchRecord) (team : String) (d : Nat) : List MatchRecord :=
  df.filter (fun r => r.away_team == team && decide (r.date < d))

/-- FeaturesCreator method get_team_games_before_date: recover both role
frames, attach the role-normalized outcome columns, concatenate and sort by
date. -/
def teamGamesBeforeDate (df : List MatchRecord) (team : String) (d : Nat) :
    List Outcome :=
  sortByDate ((homeGames df team d).map homeOutcome
    ++ (awayGames df team d).map awayOutcome)

/-- The 12 rolling feature columns produced per side; none models NaN. -/
structure TeamFeatures where
  points_won_ma_5 : Option ℚ
  points_won_ma_3 : Option ℚ
  points_weighted_ma_5 : Option ℚ
  points_weighted_ma_3 : Option ℚ
  goals_ma_5 : Option ℚ
  goals_ma_3 : Option ℚ
  goals_suffered_ma_5 : Option ℚ
  goals_suffered_ma_3 : Option ℚ
  goals_weighted_ma_5 : Option ℚ
  goals_weighted_ma_3 : Option ℚ
  goals_suffered_weighted_ma_5 : Option ℚ
  goals_suffered_weighted_ma_3 : Option ℚ
deriving DecidableEq, Repr

/-- All 12 features NaN: the empty-history branch of
calculate_team_features_at_date. -/
def nanFeatures : TeamFeatures :=
  ⟨none, none, none, none, none, none, none, none, none, none, none, none⟩

/-- Python values[-n:]: the last n elements of a list (all of them when the
list is shorter). -/
def lastN (n : Nat) (l : List ℚ) : List ℚ := l.drop (l.length - n)

/-- np.mean over a list of rationals. -/
def listMean (l : List ℚ) : ℚ := l.sum / (l.length : ℚ)

/-- The trailing mean over the last n entries of a metric column. -/
def maOf (n : Nat) (l : List ℚ) : ℚ := listMean (lastN n l)

/-- Body of calculate_team_features_at_date once the prior-game frame is in
hand: NaN row when it is empty, otherwise trailing means over the last 5 and
last 3 entries of each of the six metric columns. -/
def featuresFromGames (tg : List Outcome) : TeamFeatures :=
  if tg = [] then nanFeatures
  else
    { points_won_ma_5 := some (maOf 5 (tg.map Outcome.points_won))
      points_won_ma_3 := some (maOf 3 (tg.map Outcome.points_won))
      points_weighted_ma_5 := some (maOf 5 (tg.map Outcome.points_weighted))
      points_weighted_ma_3 := some (maOf 3 (tg.map Outcome.points_weighted))
      goals_ma_5 := some (maOf 5 (tg.map Outcome.goals))
      goals_ma_3 := some (maOf 3 (tg.map Outcome.goals))
      goals_suffered_ma_5 := some (maOf 5 (tg.map Outcome.goals_suffered))
      goals_suffered_ma_3 := some (maOf 3 (tg.map Outcome.goals_suffered))
      goals_weighted_ma_5 := some (maOf 5 (tg.map Outcome.goals_weighted))
      goals_weighted_ma_3 := some (maOf 3 (tg.map Outcome.goals_weighted))
      goals_suffered_weighted_ma_5 :=
        some (maOf 5 (tg.map Outcome.goals_suffered_weighted))
      goals_suffered_weighted_ma_3 :=
        some (maOf 3 (tg.map Outcome.goals_suffered_weighted)) }

/-- FeaturesCreator method calculate_team_features_at_date. -/
def calcTeamFeaturesAtDate (df : List MatchRecord) (team : String) (d : Nat) :
    TeamFeatures :=
  featuresFromGames (teamGamesBeforeDate df team d)

/-- One output row: the input row's columns (field base), the per-match
point/weighted columns, rank_dif, and both sides' rolling features. -/
structure FeatureRow where
  base : MatchRecord
  home_points_won : Nat
  away_points_won : Nat
  home_points_weighted : ℚ
  away_points_weighted : ℚ
  rank_dif : ℚ
  home : TeamFeatures
  away : TeamFeatures
deriving DecidableEq, Repr

/-- Assemble one output row from the input row and the two feature blocks;
the non-rolling columns are exactly the vectorized expressions of
create_all_features. -/
def mkRow (r : MatchRecord) (hf af : TeamFeatures) : FeatureRow :=
  { base := r
    home_points_won := calculate_points_won r.home_score r.away_score
    away_points_won := calculate_points_won r.away_score r.home_score
    home_points_weighted :=
      (calculate_points_won r.home_score r.away_score : ℚ) / weightDenom r.rank_away
    away_points_weighted :=
      (calculate_points_won r.away_score r.home_score : ℚ) / weightDenom r.rank_home
    rank_dif := r.rank_home - r.rank_away
    home := hf
    away := af }

/-- The row built for one input row by the loop in the method
add_all_moving_averages_efficient: both sides' features are looked up
against the full table at the row's own date. -/
def makeFeatureRow (df : List MatchRecord) (r : MatchRecord) : FeatureRow :=
  mkRow r (calcTeamFeaturesAtDate df r.home_team r.date)
    (calcTeamFeaturesAtDate df r.away_team r.date)

/-- FeaturesCreator.create_all_features on an already date-sorted table:
one output row per input row, in order. -/
def create_all_features (df : List MatchRecord) : List FeatureRow :=
  df.map (makeFeatureRow df)

/-! ### Incremental (buffered) feature engine

Modelled from the spec's complexity note and design note: per team an
incrementally-updated ordered buffer of outcomes, queried before the
team's current row is emitted and updated right after. -/

/-- State of the incremental engine: each team's buffer of outcomes
accumulated so far, in emission order. -/
def updTeamState (s : String → List Outcome) (r : MatchRecord) :
    String → List Outcome := fun t =>
  let s1 := if r.home_team = t then s t ++ [homeOutcome r] else s t
  if r.away_team = t then s1 ++ [awayOutcome r] else s1

/-- Modelled from the spec: the per-row loop of the buffered engine.  Each
row's features are read from the two teams' buffers before those buffers
are updated with the row's own outcomes. -/
def incrRows (s : String → List Outcome) : List MatchRecord → List FeatureRow
  | [] => []
  | r :: rest =>
    mkRow r (featuresFromGames (s r.home_team)) (featuresFromGames (s r.away_team))
      :: incrRows (updTeamState s r) rest

/-- Modelled from the spec: the buffered feature engine, started from empty
buffers. -/
def create_all_features_incremental (df : List MatchRecord) : List FeatureRow :=
  incrRows (fun _ => []) df

/-- The team appears in the row, in either role. -/
def participates (t : String) (r : MatchRecord) : Prop :=
  r.home_team = t ∨ r.away_team = t

instance (t : String) (r : MatchRecord) : Decidable (participates t r) :=
  inferInstanceAs (Decidable (_ ∨ _))

/-- The team's outcomes over a list of rows, in row order (home role before
away role within a row). -/
def teamOutcomes (t : String) : List MatchRecord → List Outcome
  | [] => []
  | r :: rest =>
    ((if r.home_team = t then [homeOutcome r] else [])
      ++ ((if r.away_team = t then [awayOutcome r] else [])
      ++ teamOutcomes t rest))

/-- Rows are in nondecreasing date order (the table as the constructor of
FeaturesCreator leaves it). -/
def DateSorted (df : List MatchRecord) : Prop :=
  df.Pairwise (fun a b => a.date ≤ b.date)

instance (df : List MatchRecord) : Decidable (DateSorted df) :=
  inferInstanceAs (Decidable (List.Pairwise _ _))

/-- The two rows have a team in common (in either role). -/
def sharesTeam (a b : MatchRecord) : Prop :=
  participates a.home_team b ∨ participates a.away_team b

instance (a b : MatchRecord) : Decidable (sharesTeam a b) :=
  inferInstanceAs (Decidable (_ ∨ _))

/-- No team appears in two same-date rows, and no row pits a team against
itself. -/
def NoSameDayRepeat (df : List MatchRecord) : Prop :=
  (∀ r ∈ df, r.home_team ≠ r.away_team) ∧
    df.Pairwise (fun a b => sharesTeam a b → a.date ≠ b.date)

instance (df : List MatchRecord) : Decidable (NoSameDayRepeat df) :=
  inferInstanceAs (Decidable (_ ∧ _))

/-! ### The db_builder join -/

/-- One raw match row of data/international_results.csv as db_builder.py
reads it (the columns the join touches). -/
structure RawMatch where
  date : Nat
  home_team : String
  away_team : String
  home_score : Nat
  away_score : Nat
deriving DecidableEq, Repr

/-- One row of the daily-resampled ranking table built in db_builder.py. -/
structure RankRow where
  rank_date : Nat
  nation_full_name : String
  rank : ℚ
  points : ℚ
deriving DecidableEq, Repr

/-- Lookup of a team's ranking row at a date.  After the groupby/resample
step the ranking table holds at most one row per (date, nation), so the
pandas inner merge contributes at most this one row. -/
def lookupRank (ranks : List RankRow) (d : Nat) (team : String) :
    Option RankRow :=
  ranks.find? (fun x => x.rank_date == d && x.nation_full_name == team)

/-- db_builder.py's two chained inner merges: a match row survives exactly
when both team names resolve against the ranking table at the match date;
a row that does not resolve is dropped with no error raised. -/
def buildRanked (ms : List RawMatch) (ranks : List RankRow) :
    List MatchRecord :=
  ms.filterMap (fun m =>
    match lookupRank ranks m.date m.home_team, lookupRank ranks m.date m.away_team with
    | some rh, some ra =>
      some { date := m.date, home_team := m.home_team, away_team := m.away_team
             home_score := m.home_score, away_score := m.away_score
             rank_home := rh.rank, rank_away := ra.rank }
    | _, _ => none)

/-! ### Concrete tables used to instantiate the theorems -/

/-- A single decisive match: A beats B 2-0, both ranked 50. -/
def exRow1 : MatchRecord :=
  { date := 1, home_team := "A", away_team := "B"
    home_score := 2, away_score := 0, rank_home := 50, rank_away := 50 }

/-- One-row table around exRow1. -/
def exDf1 : List MatchRecord := [exRow1]

/-- Team A scores 1, 2, 3 in three matches, then plays a fourth. -/
def exDfC3 : List MatchRecord :=
  [ { date := 10, home_team := "A", away_team := "B"
      home_score := 1, away_score := 0, rank_home := 1, rank_away := 2 }
  , { date := 20, home_team := "A", away_team := "C"
      home_score := 2, away_score := 0, rank_home := 1, rank_away := 2 }
  , { date := 30, home_team := "A", away_team := "D"
      home_score := 3, away_score := 0, rank_home := 1, rank_away := 2 }
  , { date := 40, home_team := "A", away_team := "E"
      home_score := 0, away_score := 0, rank_home := 1, rank_away := 2 } ]

/-- Team X plays twice on the same date: the buffered engine and the naive
engine disagree on the second row. -/
def cexDf : List MatchRecord :=
  [ { date := 5, home_team := "X", away_team := "Y"
      home_score := 1, away_score := 0, rank_home := 10, rank_away := 20 }
  , { date := 5, home_team := "X", away_team := "Z"
      home_score := 0, away_score := 2, rank_home := 10, rank_away := 30 } ]

/-- A sorted table with no same-day repeat: three matches on three dates. -/
def wDf : List MatchRecord :=
  [ { date := 1, home_team := "A", away_team := "B"
      home_score := 2, away_score := 0, rank_home := 10, rank_away := 20 }
  , { date := 2, home_team := "B", away_team := "C"
      home_score := 1, away_score := 1, rank_home := 20, rank_away := 30 }
  , { date := 3, home_team := "A", away_team := "C"
      home_score := 0, away_score := 1, rank_home := 10, rank_away := 30 } ]

/-- A raw match whose away team has no ranking row at the match date. -/
def exRawMatch : RawMatch :=
  { date := 10, home_team := "Scotland", away_team := "Wales"
    home_score := 1, away_score := 0 }

/-- A ranking table that knows Scotland but not Wales on day 10. -/
def exRanks : List RankRow :=
  [ { rank_date := 10, nation_full_name := "Scotland", rank := 40, points := 1400 } ]

/-! ### Supporting lemmas -/

/-- Python values[-n:] keeps min n (length) elements. -/
theorem lastN_length (n : Nat) (l : List ℚ) : (lastN n l).length = min n l.length := by
  unfold lastN
  rw [List.length_drop]
  omega

/-- A trailing mean is the sum of the kept tail divided by how many elements
were kept. -/
theorem maOf_eq_sum_div (n : Nat) (l : List ℚ) :
    maOf n l = (lastN n l).sum / (min n l.length : ℚ) := by
  unfold maOf listMean
  rw [lastN_length]
  norm_cast

/-! ### C1: the prior-match history is exactly the strictly earlier rows -/

/-- C1.  An outcome belongs to the history frame built by
get_team_games_before_date for (team, d) exactly when some input row with
date strictly below d features the team as home_team or away_team and the
outcome is that row seen from the team's role.  In particular no row with
date at or after d — and hence no same-date row — ever contributes. -/
theorem mem_teamGamesBeforeDate (df : List MatchRecord) (team : String)
    (d : Nat) (o : Outcome) :
    o ∈ teamGamesBeforeDate df team d ↔
      ∃ r ∈ df, r.date < d ∧
        ((r.home_team = team ∧ o = homeOutcome r) ∨
         (r.away_team = team ∧ o = awayOutcome r)) := by
  unfold teamGamesBeforeDate sortByDate homeGames awayGames
  rw [List.mem_insertionSort]
  simp only [List.mem_append, List.mem_map, List.mem_filter, Bool.and_eq_true,
    beq_iff_eq, decide_eq_true_eq]
  constructor
  · rintro (⟨r, ⟨hr, hh, hd⟩, rfl⟩ | ⟨r, ⟨hr, ha, hd⟩, rfl⟩)
    · exact ⟨r, hr, hd, Or.inl ⟨hh, rfl⟩⟩
    · exact ⟨r, hr, hd, Or.inr ⟨ha, rfl⟩⟩
  · rintro ⟨r, hr, hd, ⟨hh, rfl⟩ | ⟨ha, rfl⟩⟩
    · exact Or.inl ⟨r, ⟨hr, hh, hd⟩, rfl⟩
    · exact Or.inr ⟨r, ⟨hr, ha, hd⟩, rfl⟩

/-! ### C2: empty history yields all-NaN features, no exception -/

/-- C2.  When a team's prior-match frame is empty (in particular for a team
never seen before in either role), calculate_team_features_at_date returns
the all-NaN feature block: every one of the 12 rolling values is none, and
the (total) computation returns normally. -/
theorem emptyHistory_all_nan (df : List MatchRecord) (team : String) (d : Nat)
    (h : teamGamesBeforeDate df team d = []) :
    calcTeamFeaturesAtDate df team d = nanFeatures ∧
    (calcTeamFeaturesAtDate df team d).points_won_ma_5 = none ∧
    (calcTeamFeaturesAtDate df team d).points_won_ma_3 = none ∧
    (calcTeamFeaturesAtDate df team d).points_weighted_ma_5 = none ∧
    (calcTeamFeaturesAtDate df team d).points_weighted_ma_3 = none ∧
    (calcTeamFeaturesAtDate df team d).goals_ma_5 = none ∧
    (calcTeamFeaturesAtDate df team d).goals_ma_3 = none ∧
    (calcTeamFeaturesAtDate df team d).goals_suffered_ma_5 = none ∧
    (calcTeamFeaturesAtDate df team d).goals_suffered_ma_3 = none ∧
    (calcTeamFeaturesAtDate df team d).goals_weighted_ma_5 = none ∧
    (calcTeamFeaturesAtDate df team d).goals_weighted_ma_3 = none ∧
    (calcTeamFeaturesAtDate df team d).goals_suffered_weighted_ma_5 = none ∧
    (calcTeamFeaturesAtDate df team d).goals_suffered_weighted_ma_3 = none := by
  have hb : calcTeamFeaturesAtDate df team d = nanFeatures := by
    unfold calcTeamFeaturesAtDate featuresFromGames
    rw [h]
    rfl
  rw [hb]
  exact ⟨rfl, rfl, rfl, rfl, rfl, rfl, rfl, rfl, rfl, rfl, rfl, rfl, rfl⟩

/-- Instantiation of C2: team Z has no row at all in exDf1. -/
theorem emptyHistory_all_nan_witness :
    calcTeamFeaturesAtDate exDf1 "Z" 1 = nanFeatures ∧
    (calcTeamFeaturesAtDate exDf1 "Z" 1).points_won_ma_5 = none ∧
    (calcTeamFeaturesAtDate exDf1 "Z" 1).points_won_ma_3 = none ∧
    (calcTeamFeaturesAtDate exDf1 "Z" 1).points_weighted_ma_5 = none ∧
    (calcTeamFeaturesAtDate exDf1 "Z" 1).points_weighted_ma_3 = none ∧
    (calcTeamFeaturesAtDate exDf1 "Z" 1).goals_ma_5 = none ∧
    (calcTeamFeaturesAtDate exDf1 "Z" 1).goals_ma_3 = none ∧
    (calcTeamFeaturesAtDate exDf1 "Z" 1).goals_suffered_ma_5 = none ∧
    (calcTeamFeaturesAtDate exDf1 "Z" 1).goals_suffered_ma_3 = none ∧
    (calcTeamFeaturesAtDate exDf1 "Z" 1).goals_weighted_ma_5 = none ∧
    (calcTeamFeaturesAtDate exDf1 "Z" 1).goals_weighted_ma_3 = none ∧
    (calcTeamFeaturesAtDate exDf1 "Z" 1).goals_suffered_weighted_ma_5 = none ∧
    (calcTeamFeaturesAtDate exDf1 "Z" 1).goals_suffered_weighted_ma_3 = none :=
  emptyHistory_all_nan exDf1 "Z" 1 (by decide)

/-! ### C3: trailing means average the most recent min(5,n) / min(3,n) outcomes -/

/-- C3.  With at least one prior match, every ma_5 (resp. ma_3) value is the
sum of the metric over the last min(5,n) (resp. min(3,n)) prior outcomes
divided by that same count, n being the number of prior matches. -/
theorem ma_is_trailing_mean (df : List MatchRecord) (team : String) (d : Nat)
    (h : teamGamesBeforeDate df team d ≠ []) :
    (calcTeamFeaturesAtDate df team d).points_won_ma_5 =
      some ((lastN 5 ((teamGamesBeforeDate df team d).map Outcome.points_won)).sum
        / (min 5 (teamGamesBeforeDate df team d).length : ℚ)) ∧
    (calcTeamFeaturesAtDate df team d).points_won_ma_3 =
      some ((lastN 3 ((teamGamesBeforeDate df team d).map Outcome.points_won)).sum
        / (min 3 (teamGamesBeforeDate df team d).length : ℚ)) ∧
    (calcTeamFeaturesAtDate df team d).points_weighted_ma_5 =
      some ((lastN 5 ((teamGamesBeforeDate df team d).map Outcome.points_weighted)).sum
        / (min 5 (teamGamesBeforeDate df team d).length : ℚ)) ∧
    (calcTeamFeaturesAtDate df team d).points_weighted_ma_3 =
      some ((lastN 3 ((teamGamesBeforeDate df team d).map Outcome.points_weighted)).sum
        / (min 3 (teamGamesBeforeDate df team d).length : ℚ)) ∧
    (calcTeamFeaturesAtDate df team d).goals_ma_5 =
      some ((lastN 5 ((teamGamesBeforeDate df team d).map Outcome.goals)).sum
        / (min 5 (teamGamesBeforeDate df team d).length : ℚ)) ∧
    (calcTeamFeaturesAtDate df team d).goals_ma_3 =
      some ((lastN 3 ((teamGamesBeforeDate df team d).map Outcome.goals)).sum
        / (min 3 (teamGamesBeforeDate df team d).length : ℚ)) ∧
    (calcTeamFeaturesAtDate df team d).goals_suffered_ma_5 =
      some ((lastN 5 ((teamGamesBeforeDate df team d).map Outcome.goals_suffered)).sum
        / (min 5 (teamGamesBeforeDate df team d).length : ℚ)) ∧
    (calcTeamFeaturesAtDate df team d).goals_suffered_ma_3 =
      some ((lastN 3 ((teamGamesBeforeDate df team d).map Outcome.goals_suffered)).sum
        / (min 3 (teamGamesBeforeDate df team d).length : ℚ)) ∧
    (calcTeamFeaturesAtDate df team d).goals_weighted_ma_5 =
      some ((lastN 5 ((teamGamesBeforeDate df team d).map Outcome.goals_weighted)).sum
        / (min 5 (teamGamesBeforeDate df team d).length : ℚ)) ∧
    (calcTeamFeaturesAtDate df team d).goals_weighted_ma_3 =
      some ((lastN 3 ((teamGamesBeforeDate df team d).map Outcome.goals_weighted)).sum
        / (min 3 (teamGamesBeforeDate df team d).length : ℚ)) ∧
    (calcTeamFeaturesAtDate df team d).goals_suffered_weighted_ma_5 =
      some ((lastN 5 ((teamGamesBeforeDate df team d).map
        Outcome.goals_suffered_weighted)).sum
        / (min 5 (teamGamesBeforeDate df team d).length : ℚ)) ∧
    (calcTeamFeaturesAtDate df team d).goals_suffered_weighted_ma_3 =
      some ((lastN 3 ((teamGamesBeforeDate df team d).map
        Outcome.goals_suffered_weighted)).sum
        / (min 3 (teamGamesBeforeDate df team d).length : ℚ)) := by
  simp only [calcTeamFeaturesAtDate, featuresFromGames, if_neg h, maOf_eq_sum_div,
    List.length_map]
  exact ⟨rfl, rfl, rfl, rfl, rfl, rfl, rfl, rfl, rfl, rfl, rfl, rfl⟩

/-- Instantiation of C3: team A with prior goals 1, 2, 3 gets goals_ma_3 = 2
and goals_ma_5 = 2 at its fourth match. -/
theorem ma_is_trailing_mean_witness :
    (calcTeamFeaturesAtDate exDfC3 "A" 40).goals_ma_3 = some 2 ∧
    (calcTeamFeaturesAtDate exDfC3 "A" 40).goals_ma_5 = some 2 := by
  obtain ⟨_, _, _, _, h5, h3, _, _, _, _, _, _⟩ :=
    ma_is_trailing_mean exDfC3 "A" 40 (by decide)
  have hmap : (teamGamesBeforeDate exDfC3 "A" 40).map Outcome.goals = [1, 2, 3] := by
    simp [teamGamesBeforeDate, homeGames, awayGames, sortByDate, exDfC3,
      homeOutcome, awayOutcome, dateLE]
  have hlen : ((teamGamesBeforeDate exDfC3 "A" 40).length : ℚ) = 3 := by
    have := congrArg List.length hmap
    rw [List.length_map] at this
    rw [this]
    norm_num
  constructor
  · rw [h3, hmap]
    rw [show ((3 : ℚ) ⊓ ((teamGamesBeforeDate exDfC3 "A" 40).length : ℚ)) = 3 by
      rw [hlen]; norm_num]
    norm_num [lastN]
  · rw [h5, hmap]
    rw [show ((5 : ℚ) ⊓ ((teamGamesBeforeDate exDfC3 "A" 40).length : ℚ)) = 3 by
      rw [hlen]; norm_num]
    norm_num [lastN]

/-! ### C4: points_won values and the (home, away) partition -/

/-- C4.  Every output row's points columns come from
calculate_points_won applied to the row's own scores, and the pair is one of
(3,0), (0,3) and (1,1). -/
theorem points_won_partition (df : List MatchRecord) (fr : FeatureRow)
    (h : fr ∈ create_all_features df) :
    fr.home_points_won = calculate_points_won fr.base.home_score fr.base.away_score ∧
    fr.away_points_won = calculate_points_won fr.base.away_score fr.base.home_score ∧
    ((fr.home_points_won, fr.away_points_won) = (3, 0) ∨
     (fr.home_points_won, fr.away_points_won) = (0, 3) ∨
     (fr.home_points_won, fr.away_points_won) = (1, 1)) := by
  obtain ⟨r, _, rfl⟩ := List.mem_map.mp h
  refine ⟨rfl, rfl, ?_⟩
  simp only [makeFeatureRow, mkRow, Prod.mk.injEq]
  unfold calculate_points_won
  split_ifs <;> omega

/-- Instantiation of C4 on the 2-0 row of exDf1. -/
theorem points_won_partition_witness :
    (makeFeatureRow exDf1 exRow1).home_points_won =
      calculate_points_won (makeFeatureRow exDf1 exRow1).base.home_score
        (makeFeatureRow exDf1 exRow1).base.away_score ∧
    (makeFeatureRow exDf1 exRow1).away_points_won =
      calculate_points_won (makeFeatureRow exDf1 exRow1).base.away_score
        (makeFeatureRow exDf1 exRow1).base.home_score ∧
    (((makeFeatureRow exDf1 exRow1).home_points_won,
      (makeFeatureRow exDf1 exRow1).away_points_won) = (3, 0) ∨
     ((makeFeatureRow exDf1 exRow1).home_points_won,
      (makeFeatureRow exDf1 exRow1).away_points_won) = (0, 3) ∨
     ((makeFeatureRow exDf1 exRow1).home_points_won,
      (makeFeatureRow exDf1 exRow1).away_points_won) = (1, 1)) :=
  points_won_partition exDf1 (makeFeatureRow exDf1 exRow1) (by
    simp [create_all_features, exDf1])

/-! ### C5: the weighted-points columns -/

/-- C5.  In every output row, each side's points_weighted equals its
points_won divided by 1 + opponent_rank/100, the opponent rank being
rank_away for the home side and rank_home for the away side. -/
theorem points_weighted_spec (df : List MatchRecord) (fr : FeatureRow)
    (h : fr ∈ create_all_features df) :
    fr.home_points_weighted =
      (fr.home_points_won : ℚ) / (1 + fr.base.rank_away / 100) ∧
    fr.away_points_weighted =
      (fr.away_points_won : ℚ) / (1 + fr.base.rank_home / 100) := by
  obtain ⟨r, _, rfl⟩ := List.mem_map.mp h
  exact ⟨rfl, rfl⟩

/-- Instantiation of C5: points_won = 3 against opponent rank 50 gives
points_weighted = 2. -/
theorem points_weighted_spec_witness :
    (makeFeatureRow exDf1 exRow1).home_points_weighted =
      ((makeFeatureRow exDf1 exRow1).home_points_won : ℚ)
        / (1 + (makeFeatureRow exDf1 exRow1).base.rank_away / 100) ∧
    (makeFeatureRow exDf1 exRow1).home_points_weighted = 2 := by
  have h := points_weighted_spec exDf1 (makeFeatureRow exDf1 exRow1) (by
    simp [create_all_features, exDf1])
  refine ⟨h.1, ?_⟩
  rw [h.1]
  norm_num [makeFeatureRow, mkRow, exRow1, calculate_points_won]

/-! ### C6: one output row per input row, original columns unchanged -/

/-- C6.  The feature engine emits exactly one output row per input row, in
input order, and each output row carries its input row unchanged (the
output is the input table with feature columns appended). -/
theorem rows_preserved (df : List MatchRecord) :
    (create_all_features df).length = df.length ∧
    (create_all_features df).map FeatureRow.base = df := by
  constructor
  · simp [create_all_features]
  · simp only [create_all_features, List.map_map]
    have : (FeatureRow.base ∘ makeFeatureRow df) = id := by
      funext r
      rfl
    rw [this, List.map_id]

/-! ### C8: the ranking join drops mismatched names silently (code bug) -/

/-- C8 (divergence witness).  db_builder's chained inner merges return
normally on a table whose away team is missing from the ranking
vocabulary: the match row is silently dropped (output length 0 from input
length 1) and no failure of any kind is raised — the code has no post-join
row-count validation. -/
theorem join_drops_silently :
    buildRanked [exRawMatch] exRanks = [] ∧
    ([exRawMatch] : List RawMatch).length = 1 := by
  exact ⟨rfl, rfl⟩

/-! ### C9: determinism of the pipeline -/

/-- C9.  The feature pipeline is a pure function of its input table: two
runs on identical inputs give identical outputs (the embedding exhibits no
randomness, clock or other hidden input). -/
theorem pipeline_deterministic (df1 df2 : List MatchRecord) (h : df1 = df2) :
    create_all_features df1 = create_all_features df2 :=
  congrArg create_all_features h

/-- Instantiation of C9 on the one-row table. -/
theorem pipeline_deterministic_witness :
    create_all_features exDf1 = create_all_features exDf1 :=
  pipeline_deterministic exDf1 exDf1 rfl

/-! ### C10: the weighting denominators cannot vanish -/

/-- A rank strictly above -100 keeps 1 + rank/100 away from zero. -/
theorem weightDenom_ne_zero {q : ℚ} (h : -100 < q) : weightDenom q ≠ 0 := by
  unfold weightDenom
  intro h0
  have hq : q = -100 := by
    field_simp at h0
    linarith
  rw [hq] at h
  exact absurd h (by norm_num)

/-- C10.  For ranks strictly above -100 (so for all real FIFA ranks) every
denominator 1 + rank/100 used by the weighted metrics is nonzero, and each
weighted metric of both role-normalized outcome views is the exact quotient
of its raw metric by that denominator. -/
theorem weighted_metrics_defined (r : MatchRecord)
    (h1 : -100 < r.rank_home) (h2 : -100 < r.rank_away) :
    weightDenom r.rank_home ≠ 0 ∧ weightDenom r.rank_away ≠ 0 ∧
    (homeOutcome r).points_weighted * weightDenom r.rank_away =
      (homeOutcome r).points_won ∧
    (homeOutcome r).goals_weighted * weightDenom r.rank_away =
      (homeOutcome r).goals ∧
    (homeOutcome r).goals_suffered_weighted * weightDenom r.rank_away =
      (homeOutcome r).goals_suffered ∧
    (awayOutcome r).points_weighted * weightDenom r.rank_home =
      (awayOutcome r).points_won ∧
    (awayOutcome r).goals_weighted * weightDenom r.rank_home =
      (awayOutcome r).goals ∧
    (awayOutcome r).goals_suffered_weighted * weightDenom r.rank_home =
      (awayOutcome r).goals_suffered := by
  have nh := weightDenom_ne_zero h1
  have na := weightDenom_ne_zero h2
  refine ⟨nh, na, ?_, ?_, ?_, ?_, ?_, ?_⟩ <;>
    simp only [homeOutcome, awayOutcome] <;>
    exact div_mul_cancel₀ _ (by assumption)

/-- Instantiation of C10 at the rank-50 row. -/
theorem weighted_metrics_defined_witness :
    weightDenom exRow1.rank_home ≠ 0 ∧ weightDenom exRow1.rank_away ≠ 0 ∧
    (homeOutcome exRow1).points_weighted * weightDenom exRow1.rank_away =
      (homeOutcome exRow1).points_won ∧
    (homeOutcome exRow1).goals_weighted * weightDenom exRow1.rank_away =
      (homeOutcome exRow1).goals ∧
    (homeOutcome exRow1).goals_suffered_weighted * weightDenom exRow1.rank_away =
      (homeOutcome exRow1).goals_suffered ∧
    (awayOutcome exRow1).points_weighted * weightDenom exRow1.rank_home =
      (awayOutcome exRow1).points_won ∧
    (awayOutcome exRow1).goals_weighted * weightDenom exRow1.rank_home =
      (awayOutcome exRow1).goals ∧
    (awayOutcome exRow1).goals_suffered_weighted * weightDenom exRow1.rank_home =
      (awayOutcome exRow1).goals_suffered :=
  weighted_metrics_defined exRow1 (by norm_num [exRow1]) (by norm_num [exRow1])

/-! ### C7: the buffered engine against the naive engine -/

/-- teamOutcomes distributes over append. -/
theorem teamOutcomes_append (t : String) (l1 l2 : List MatchRecord) :
    teamOutcomes t (l1 ++ l2) = teamOutcomes t l1 ++ teamOutcomes t l2 := by
  induction l1 with
  | nil => rfl
  | cons x l1 ih => simp [teamOutcomes, ih, List.append_assoc]

/-- One buffer update appends exactly the row's outcomes for each team. -/
theorem updTeamState_teamOutcomes (pre : List MatchRecord) (r : MatchRecord) :
    updTeamState (fun t => teamOutcomes t pre) r
      = fun t => teamOutcomes t (pre ++ [r]) := by
  funext t
  rw [teamOutcomes_append]
  unfold updTeamState
  by_cases hh : r.home_team = t <;> by_cases ha : r.away_team = t <;>
    simp [hh, ha, teamOutcomes]

/-- Every buffered outcome comes from a row of the list the team played in. -/
theorem mem_teamOutcomes {t : String} {l : List MatchRecord} {o : Outcome}
    (h : o ∈ teamOutcomes t l) :
    ∃ r ∈ l, participates t r ∧ (o = homeOutcome r ∨ o = awayOutcome r) := by
  induction l with
  | nil => cases h
  | cons x l ih =>
    unfold teamOutcomes at h
    rcases List.mem_append.mp h with hx | h2
    · by_cases hh : x.home_team = t
      · rw [if_pos hh] at hx
        rcases List.mem_singleton.mp hx with rfl
        exact ⟨x, List.mem_cons_self x l, Or.inl hh, Or.inl rfl⟩
      · rw [if_neg hh] at hx
        cases hx
    · rcases List.mem_append.mp h2 with hx | h3
      · by_cases ha : x.away_team = t
        · rw [if_pos ha] at hx
          rcases List.mem_singleton.mp hx with rfl
          exact ⟨x, List.mem_cons_self x l, Or.inr ha, Or.inr rfl⟩
        · rw [if_neg ha] at hx
          cases hx
      · obtain ⟨r, hr, hp, ho⟩ := ih h3
        exact ⟨r, List.mem_cons_of_mem x hr, hp, ho⟩

/-- Under sortedness and no same-day repeats, a team's buffered outcomes
are in strictly increasing date order. -/
theorem teamOutcomes_pairwise_lt (t : String) (l : List MatchRecord)
    (hs : l.Pairwise (fun a b => a.date ≤ b.date))
    (hok : ∀ r ∈ l, r.home_team ≠ r.away_team)
    (hnr : l.Pairwise (fun a b => sharesTeam a b → a.date ≠ b.date)) :
    (teamOutcomes t l).Pairwise dateLT := by
  induction l with
  | nil => exact List.Pairwise.nil
  | cons x l ih =>
    rw [List.pairwise_cons] at hs hnr
    have hxok := hok x (List.mem_cons_self x l)
    have hok' : ∀ r ∈ l, r.home_team ≠ r.away_team :=
      fun r hr => hok r (List.mem_cons_of_mem x hr)
    unfold teamOutcomes
    rw [← List.append_assoc, List.pairwise_append]
    refine ⟨?_, ih hs.2 hok' hnr.2, ?_⟩
    · by_cases hh : x.home_team = t <;> by_cases ha : x.away_team = t
      · exact absurd (hh.trans ha.symm) hxok
      · simp [hh, ha]
      · simp [hh, ha]
      · simp [hh, ha]
    · intro o hoin o' ho'
      obtain ⟨r', hr', hp', hform'⟩ := mem_teamOutcomes ho'
      obtain ⟨hdo, hpt⟩ : o.date = x.date ∧ participates t x := by
        rcases List.mem_append.mp hoin with hx | hx
        · by_cases hh : x.home_team = t
          · rw [if_pos hh] at hx
            rcases List.mem_singleton.mp hx with rfl
            exact ⟨rfl, Or.inl hh⟩
          · rw [if_neg hh] at hx
            cases hx
        · by_cases ha : x.away_team = t
          · rw [if_pos ha] at hx
            rcases List.mem_singleton.mp hx with rfl
            exact ⟨rfl, Or.inr ha⟩
          · rw [if_neg ha] at hx
            cases hx
      have hdo' : o'.date = r'.date := by
        rcases hform' with rfl | rfl <;> rfl
      have hle : x.date ≤ r'.date := hs.1 r' hr'
      have hshare : sharesTeam x r' := by
        rcases hpt with hh | ha
        · exact Or.inl (hh ▸ hp')
        · exact Or.inr (ha ▸ hp')
      have hne := hnr.1 r' hr' hshare
      unfold dateLT
      rw [hdo, hdo']
      exact Nat.lt_of_le_of_ne hle hne

/-- A team's buffered outcomes are a permutation of the home-filtered rows
mapped to home outcomes followed by the away-filtered rows mapped to away
outcomes. -/
theorem teamOutcomes_perm (t : String) (l : List MatchRecord) :
    teamOutcomes t l
      ~ (l.filter (fun r => r.home_team == t)).map homeOutcome
        ++ (l.filter (fun r => r.away_team == t)).map awayOutcome := by
  induction l with
  | nil => exact List.Perm.refl _
  | cons x l ih =>
    unfold teamOutcomes
    by_cases hh : x.home_team = t <;> by_cases ha : x.away_team = t
    · simp only [if_pos hh, if_pos ha, filter_cons,
        show (x.home_team == t) = true from beq_iff_eq.mpr hh,
        show (x.away_team == t) = true from beq_iff_eq.mpr ha,
        if_true, map_cons, singleton_append, cons_append]
      exact ((ih.cons _).trans List.perm_middle.symm).cons _
    · simp only [if_pos hh, if_neg ha, filter_cons,
        show (x.home_team == t) = true from beq_iff_eq.mpr hh,
        show (x.away_team == t) = false from beq_eq_false_iff_ne.mpr ha,
        if_true, if_false, map_cons, singleton_append, nil_append, cons_append]
      exact ih.cons _
    · simp only [if_neg hh, if_pos ha, filter_cons,
        show (x.home_team == t) = false from beq_eq_false_iff_ne.mpr hh,
        show (x.away_team == t) = true from beq_iff_eq.mpr ha,
        if_true, if_false, map_cons, singleton_append, nil_append]
      exact (ih.cons _).trans List.perm_middle.symm
    · simp only [if_neg hh, if_neg ha, filter_cons,
        show (x.home_team == t) = false from beq_eq_false_iff_ne.mpr hh,
        show (x.away_team == t) = false from beq_eq_false_iff_ne.mpr ha,
        if_false, nil_append]
      exact ih

/-- For a sorted table with no same-day repeat, the home-role date filter at
a row's own date keeps exactly the earlier rows in which the team is home. -/
theorem homeGames_before (pre : List MatchRecord) (r : MatchRecord)
    (rest : List MatchRecord) (t : String)
    (hs : DateSorted (pre ++ r :: rest))
    (hnr : NoSameDayRepeat (pre ++ r :: rest))
    (ht : participates t r) :
    homeGames (pre ++ r :: rest) t r.date
      = pre.filter (fun x => x.home_team == t) := by
  unfold homeGames
  rw [filter_append]
  have h2 : (r :: rest).filter
      (fun x => x.home_team == t && decide (x.date < r.date)) = [] := by
    rw [filter_eq_nil_iff]
    intro a ha
    rcases mem_cons.mp ha with rfl | ha'
    · simp
    · have hle : r.date ≤ a.date :=
        (pairwise_cons.mp (pairwise_append.mp hs).2.1).1 a ha'
      simp [Nat.not_lt.mpr hle]
  rw [h2, List.append_nil]
  apply filter_congr
  intro x hx
  by_cases hxh : x.home_team = t
  · have hle : x.date ≤ r.date :=
      (pairwise_append.mp hs).2.2 x hx r (mem_cons_self r rest)
    have hshare : sharesTeam x r := Or.inl (by rw [hxh]; exact ht)
    have hne : x.date ≠ r.date :=
      (pairwise_append.mp hnr.2).2.2 x hx r (mem_cons_self r rest) hshare
    simp [hxh, Nat.lt_of_le_of_ne hle hne]
  · simp [hxh]

/-- The away-role analogue of homeGames_before. -/
theorem awayGames_before (pre : List MatchRecord) (r : MatchRecord)
    (rest : List MatchRecord) (t : String)
    (hs : DateSorted (pre ++ r :: rest))
    (hnr : NoSameDayRepeat (pre ++ r :: rest))
    (ht : participates t r) :
    awayGames (pre ++ r :: rest) t r.date
      = pre.filter (fun x => x.away_team == t) := by
  unfold awayGames
  rw [filter_append]
  have h2 : (r :: rest).filter
      (fun x => x.away_team == t && decide (x.date < r.date)) = [] := by
    rw [filter_eq_nil_iff]
    intro a ha
    rcases mem_cons.mp ha with rfl | ha'
    · simp
    · have hle : r.date ≤ a.date :=
        (pairwise_cons.mp (pairwise_append.mp hs).2.1).1 a ha'
      simp [Nat.not_lt.mpr hle]
  rw [h2, List.append_nil]
  apply filter_congr
  intro x hx
  by_cases hxa : x.away_team = t
  · have hle : x.date ≤ r.date :=
      (pairwise_append.mp hs).2.2 x hx r (mem_cons_self r rest)
    have hshare : sharesTeam x r := Or.inr (by rw [hxa]; exact ht)
    have hne : x.date ≠ r.date :=
      (pairwise_append.mp hnr.2).2.2 x hx r (mem_cons_self r rest) hshare
    simp [hxa, Nat.lt_of_le_of_ne hle hne]
  · simp [hxa]

/-- Crux of the refinement: at each row, the naive whole-table history
lookup returns exactly the team's buffer accumulated over the preceding
rows, provided the table is sorted with no same-day repeat. -/
theorem teamGames_eq_teamOutcomes (pre : List MatchRecord) (r : MatchRecord)
    (rest : List MatchRecord) (t : String)
    (hs : DateSorted (pre ++ r :: rest))
    (hnr : NoSameDayRepeat (pre ++ r :: rest))
    (ht : participates t r) :
    teamGamesBeforeDate (pre ++ r :: rest) t r.date = teamOutcomes t pre := by
  unfold teamGamesBeforeDate sortByDate
  rw [homeGames_before pre r rest t hs hnr ht,
    awayGames_before pre r rest t hs hnr ht]
  have hpre_s : pre.Pairwise (fun a b => a.date ≤ b.date) :=
    (pairwise_append.mp hs).1
  have hpre_ok : ∀ x ∈ pre, x.home_team ≠ x.away_team :=
    fun x hx => hnr.1 x (mem_append.mpr (Or.inl hx))
  have hpre_nr : pre.Pairwise (fun a b => sharesTeam a b → a.date ≠ b.date) :=
    (pairwise_append.mp hnr.2).1
  have hto_lt : (teamOutcomes t pre).Pairwise dateLT :=
    teamOutcomes_pairwise_lt t pre hpre_s hpre_ok hpre_nr
  have hperm :
      insertionSort dateLE
        ((pre.filter (fun x => x.home_team == t)).map homeOutcome
          ++ (pre.filter (fun x => x.away_team == t)).map awayOutcome)
        ~ teamOutcomes t pre :=
    (List.perm_insertionSort dateLE _).trans (teamOutcomes_perm t pre).symm
  have hne_t : (teamOutcomes t pre).Pairwise (fun a b => a.date ≠ b.date) :=
    hto_lt.imp (fun h => Nat.ne_of_lt h)
  have hne_s :
      (insertionSort dateLE
        ((pre.filter (fun x => x.home_team == t)).map homeOutcome
          ++ (pre.filter (fun x => x.away_team == t)).map awayOutcome)).Pairwise
        (fun a b => a.date ≠ b.date) :=
    (List.Perm.pairwise_iff (fun h => Ne.symm h) hperm).mpr hne_t
  have hlt_s :
      (insertionSort dateLE
        ((pre.filter (fun x => x.home_team == t)).map homeOutcome
          ++ (pre.filter (fun x => x.away_team == t)).map awayOutcome)).Pairwise
        dateLT :=
    ((List.sorted_insertionSort dateLE _).and hne_s).imp
      (fun h => Nat.lt_of_le_of_ne h.1 h.2)
  exact List.eq_of_perm_of_sorted hperm hlt_s hto_lt

/-- The buffered loop started from the buffers of any already-processed
prefix reproduces the naive rows of the remaining suffix. -/
theorem incrRows_from_buffer (rest : List MatchRecord) :
    ∀ pre : List MatchRecord,
      DateSorted (pre ++ rest) → NoSameDayRepeat (pre ++ rest) →
      incrRows (fun t => teamOutcomes t pre) rest
        = rest.map (makeFeatureRow (pre ++ rest)) := by
  induction rest with
  | nil => intro pre _ _; rfl
  | cons r rest ih =>
    intro pre hs hnr
    have heq : (pre ++ [r]) ++ rest = pre ++ r :: rest := by simp
    have hs' : DateSorted ((pre ++ [r]) ++ rest) := by rw [heq]; exact hs
    have hnr' : NoSameDayRepeat ((pre ++ [r]) ++ rest) := by rw [heq]; exact hnr
    have htail := ih (pre ++ [r]) hs' hnr'
    rw [heq] at htail
    have hhome :
        featuresFromGames (teamOutcomes r.home_team pre)
          = calcTeamFeaturesAtDate (pre ++ r :: rest) r.home_team r.date := by
      unfold calcTeamFeaturesAtDate
      rw [teamGames_eq_teamOutcomes pre r rest r.home_team hs hnr (Or.inl rfl)]
    have haway :
        featuresFromGames (teamOutcomes r.away_team pre)
          = calcTeamFeaturesAtDate (pre ++ r :: rest) r.away_team r.date := by
      unfold calcTeamFeaturesAtDate
      rw [teamGames_eq_teamOutcomes pre r rest r.away_team hs hnr (Or.inr rfl)]
    simp only [incrRows, map_cons]
    rw [updTeamState_teamOutcomes, htail]
    unfold makeFeatureRow
    rw [hhome, haway]

/-- C7 (amended).  On a chronologically sorted table in which no team
appears in two matches of the same date (and no match pairs a team with
itself), the buffered engine agrees with the naive engine row for row. -/
theorem incr_eq_naive (df : List MatchRecord) (hs : DateSorted df)
    (hnr : NoSameDayRepeat df) :
    create_all_features_incremental df = create_all_features df := by
  unfold create_all_features_incremental create_all_features
  have h0 : (fun _ : String => ([] : List Outcome))
      = fun t => teamOutcomes t [] := rfl
  rw [h0]
  have h := incrRows_from_buffer df [] (by simpa using hs) (by simpa using hnr)
  simpa using h

/-- C7 (counterexample to the unrestricted claim).  cexDf is
chronologically sorted, yet the buffered engine (buffers updated right
after each emitted row) and the naive engine differ on it: team X plays
twice on day 5, the buffer shows the first match to the second while the
strict date cutoff hides it. -/
theorem incr_neq_naive_on_same_day :
    DateSorted cexDf ∧
    create_all_features_incremental cexDf ≠ create_all_features cexDf := by
  refine ⟨by decide, fun hEq => ?_⟩
  have h1 : (create_all_features cexDf).map
      (fun fr => fr.home.points_won_ma_5.isSome) = [false, false] := by
    simp [create_all_features, makeFeatureRow, mkRow, calcTeamFeaturesAtDate,
      teamGamesBeforeDate, homeGames, awayGames, sortByDate, featuresFromGames,
      cexDf, nanFeatures]
  have h2 : (create_all_features_incremental cexDf).map
      (fun fr => fr.home.points_won_ma_5.isSome) = [false, true] := by
    simp [create_all_features_incremental, incrRows, updTeamState, mkRow,
      featuresFromGames, cexDf, nanFeatures]
  rw [hEq, h1] at h2
  exact absurd h2 (by simp)

/-- Instantiation of the amended C7 on a three-row sorted table with
distinct dates. -/
theorem incr_eq_naive_witness :
    create_all_features_incremental wDf = create_all_features wDf :=
  incr_eq_naive wDf (by decide) (by decide)

end WorldCupSim
